import Mathlib

/-
Verification of the JMAP n8n node (mmaudet/n8n-nodes-jmap).

Shallow embedding of the core logic of the repository:
  * the incremental polling loop of JmapTrigger.poll (watermark-based
    deduplication over a persisted lastProcessedTime),
  * the response-envelope demultiplexing performed by the mail operations
    in GenericFunctions (queryEmails, sendEmail, updateEmailKeywords),
  * session account resolution (getPrimaryAccountId),
  * the attachment MIME filter (matchesMimeType, getAttachments),
  * the Email/set request construction for keyword updates
    (updateEmailKeywords as invoked by markAsRead / markAsUnread).

Network interaction is modelled by passing the server-supplied data
(query id lists, fetched email records, response envelopes, mailbox
lists) as explicit inputs, and by returning the list of issued method
calls where a claim is about what is sent.  Timestamps are modelled as
integers: the code compares receivedAt values through
new Date(s).getTime(), an order-embedding on the ISO date strings the
protocol carries.
-/

namespace Jmap

/-! ## Poller (JmapTrigger.poll)

The poll cycle reads the persisted watermark webhookData.lastProcessedTime,
queries email ids (filter.after = watermark when present), fetches the full
records, then:
  * returns null when the id list or the fetched list is empty,
  * assigns webhookData.lastProcessedTime := emails[0].receivedAt,
  * filters the fetched list by receivedAt strictly greater than the
    watermark captured at the start of the cycle (only when one existed),
  * returns null when the filtered list is empty, else emits it.
Note the assignment to the watermark happens BEFORE the strict filter is
applied, exactly as in the source. -/

/-- One fetched email record, reduced to the fields the poll logic reads.
The receivedAt field is the Date.getTime value of the timestamp string. -/
structure FetchedEmail where
  id : String
  receivedAt : Int
  deriving DecidableEq, Repr, Inhabited

/-- The persisted node static data read and written by the poll cycle. -/
structure PollState where
  lastProcessedTime : Option Int
  deriving DecidableEq, Repr

/-- The deduplication step of the poll cycle: when a watermark existed at
the start of the cycle, keep only emails with receivedAt strictly greater
than it; otherwise keep everything. -/
def pollNewEmails (st : PollState) (emails : List FetchedEmail) :
    List FetchedEmail :=
  match st.lastProcessedTime with
  | some lastTime => emails.filter (fun e => decide (lastTime < e.receivedAt))
  | none => emails

/-- The poll cycle of JmapTrigger.poll, with the server-supplied query
result (ids) and fetched records (emails) as inputs.  Returns the emitted
batch (none models the null return) and the persisted state after the
cycle.  The emitted records are the surviving emails; the simple/full
output mapping of the source is per element and preserves receivedAt, so
it is not modelled. -/
def poll (st : PollState) (ids : List String) (emails : List FetchedEmail) :
    Option (List FetchedEmail) × PollState :=
  if ids.isEmpty then (none, st)
  else if emails.isEmpty then (none, st)
  else
    let st2 : PollState := ⟨some emails.headI.receivedAt⟩
    let newEmails := pollNewEmails st emails
    if newEmails.isEmpty then (none, st2) else (some newEmails, st2)

theorem poll_nil_ids (st : PollState) (emails : List FetchedEmail) :
    poll st [] emails = (none, st) := rfl

theorem poll_nil_emails (st : PollState) (i : String) (it : List String) :
    poll st (i :: it) [] = (none, st) := rfl

theorem poll_cons (st : PollState) (i : String) (it : List String)
    (m : FetchedEmail) (rest : List FetchedEmail) :
    poll st (i :: it) (m :: rest) =
      if (pollNewEmails st (m :: rest)).isEmpty
      then (none, ⟨some m.receivedAt⟩)
      else (some (pollNewEmails st (m :: rest)), ⟨some m.receivedAt⟩) := rfl

/-- The maximum receivedAt over a fetched list, as folded from the head. -/
def maxReceivedAt : List FetchedEmail → Int
  | [] => 0
  | e :: rest => rest.foldl (fun acc x => max acc x.receivedAt) e.receivedAt

theorem foldl_max_of_le (l : List FetchedEmail) (acc : Int)
    (h : ∀ x ∈ l, x.receivedAt ≤ acc) :
    l.foldl (fun a x => max a x.receivedAt) acc = acc := by
  induction l with
  | nil => rfl
  | cons y ys ih =>
    have hy : y.receivedAt ≤ acc := h y (by simp)
    simp only [List.foldl_cons, max_eq_left hy]
    exact ih (fun x hx => h x (by simp [hx]))

/-- Claim C1: a poll cycle that starts with watermark w and fetches only
emails with receivedAt less than or equal to w emits nothing and does not
advance the watermark; when the fetched set moreover honours the after
filter of the query (every receivedAt at least w, which holds under both
the inclusive and the exclusive boundary reading), the persisted watermark
is unchanged from its value at the start of the cycle. -/
theorem C1_boundary_duplicates_no_emission_no_advance
    (w : Int) (ids : List String) (emails : List FetchedEmail)
    (hle : ∀ e ∈ emails, e.receivedAt ≤ w) :
    (poll ⟨some w⟩ ids emails).1 = none ∧
    (∀ t, (poll ⟨some w⟩ ids emails).2.lastProcessedTime = some t → t ≤ w) ∧
    ((∀ e ∈ emails, w ≤ e.receivedAt) →
      poll ⟨some w⟩ ids emails = (none, ⟨some w⟩)) := by
  cases ids with
  | nil =>
    rw [poll_nil_ids]
    exact ⟨rfl, fun t ht => le_of_eq (Option.some_injective _ ht).symm,
      fun _ => rfl⟩
  | cons i it =>
    cases emails with
    | nil =>
      rw [poll_nil_emails]
      exact ⟨rfl, fun t ht => le_of_eq (Option.some_injective _ ht).symm,
        fun _ => rfl⟩
    | cons m rest =>
      have hfil : pollNewEmails ⟨some w⟩ (m :: rest) = [] := by
        rw [pollNewEmails, List.filter_eq_nil_iff]
        intro e he
        simp only [decide_eq_true_eq, not_lt]
        exact hle e he
      rw [poll_cons, hfil]
      refine ⟨rfl, ?_, ?_⟩
      · intro t ht
        simp only [List.isEmpty_nil, if_true] at ht
        have hm : m.receivedAt ≤ w := hle m (by simp)
        have := Option.some_injective _ ht
        omega
      · intro hge
        have hm : m.receivedAt = w :=
          le_antisymm (hle m (by simp)) (hge m (by simp))
        simp [hm]

/-- Witness for C1 at a concrete boundary-duplicate-only cycle. -/
theorem C1_boundary_duplicates_no_emission_no_advance_witness :
    poll ⟨some 5⟩ ["a"] [⟨"a", 5⟩] = (none, ⟨some 5⟩) :=
  (C1_boundary_duplicates_no_emission_no_advance 5 ["a"] [⟨"a", 5⟩]
    (by decide)).2.2 (by decide)

/-- Claim C2: every email emitted by a poll cycle that started with an
existing watermark w has receivedAt strictly greater than w. -/
theorem C2_no_duplicate_emission
    (w : Int) (ids : List String) (emails out : List FetchedEmail)
    (st2 : PollState)
    (h : poll ⟨some w⟩ ids emails = (some out, st2)) :
    ∀ e ∈ out, w < e.receivedAt := by
  cases ids with
  | nil => rw [poll_nil_ids] at h; simp at h
  | cons i it =>
    cases emails with
    | nil => rw [poll_nil_emails] at h; simp at h
    | cons m rest =>
      rw [poll_cons] at h
      by_cases hemp : (pollNewEmails ⟨some w⟩ (m :: rest)).isEmpty
      · rw [if_pos hemp] at h; simp at h
      · rw [if_neg hemp] at h
        have hout : pollNewEmails ⟨some w⟩ (m :: rest) = out ∧
            (⟨some m.receivedAt⟩ : PollState) = st2 := by
          simpa [Prod.ext_iff] using h
        intro e he
        rw [← hout.1] at he
        rw [pollNewEmails] at he
        have := (List.mem_filter.mp he).2
        simpa using this

/-- Witness for C2 at a concrete emitting cycle. -/
theorem C2_no_duplicate_emission_witness :
    poll ⟨some 0⟩ ["a"] [⟨"a", 5⟩] = (some [⟨"a", 5⟩], ⟨some 5⟩) ∧
    (0 : Int) < (FetchedEmail.mk "a" 5).receivedAt :=
  ⟨by decide,
   C2_no_duplicate_emission 0 ["a"] [⟨"a", 5⟩] [⟨"a", 5⟩] ⟨some 5⟩ (by decide)
     ⟨"a", 5⟩ (by simp)⟩

/-- Claim C3: when a poll cycle emits, the persisted watermark equals the
maximum receivedAt over the entire freshly fetched, pre-filter list (the
source takes emails[0].receivedAt, which is that maximum because the query
requested receivedAt-descending order, stated here as the sortedness
hypothesis); the maximum is attained in the fetched list and bounds every
fetched email, filtered out or not. -/
theorem C3_watermark_is_prefilter_maximum
    (st : PollState) (ids : List String) (emails out : List FetchedEmail)
    (st2 : PollState)
    (hsorted : emails.Pairwise (fun a b => b.receivedAt ≤ a.receivedAt))
    (h : poll st ids emails = (some out, st2)) :
    st2.lastProcessedTime = some (maxReceivedAt emails) ∧
    maxReceivedAt emails ∈ emails.map (fun e => e.receivedAt) ∧
    ∀ e ∈ emails, e.receivedAt ≤ maxReceivedAt emails := by
  cases ids with
  | nil => rw [poll_nil_ids] at h; simp at h
  | cons i it =>
    cases emails with
    | nil => rw [poll_nil_emails] at h; simp at h
    | cons m rest =>
      have hrest : ∀ x ∈ rest, x.receivedAt ≤ m.receivedAt :=
        fun x hx => (List.pairwise_cons.mp hsorted).1 x hx
      have hmax : maxReceivedAt (m :: rest) = m.receivedAt :=
        foldl_max_of_le rest m.receivedAt hrest
      rw [poll_cons] at h
      have hst2 : st2 = ⟨some m.receivedAt⟩ := by
        by_cases hemp : (pollNewEmails st (m :: rest)).isEmpty
        · rw [if_pos hemp] at h; simp at h
        · rw [if_neg hemp] at h
          exact ((Prod.ext_iff.mp h).2).symm
      refine ⟨?_, ?_, ?_⟩
      · rw [hst2, hmax]
      · rw [hmax]; simp
      · intro e he
        rw [hmax]
        rcases List.mem_cons.mp he with h1 | h2
        · rw [h1]
        · exact hrest e h2

/-- Witness for C3 at a concrete emitting cycle with a non-trivial
descending fetched list. -/
theorem C3_watermark_is_prefilter_maximum_witness :
    (PollState.mk (some 7)).lastProcessedTime
      = some (maxReceivedAt [⟨"a", 7⟩, ⟨"b", 3⟩]) ∧
    maxReceivedAt [⟨"a", 7⟩, ⟨"b", 3⟩]
      ∈ [FetchedEmail.mk "a" 7, FetchedEmail.mk "b" 3].map
          (fun e => e.receivedAt) ∧
    ∀ e ∈ [FetchedEmail.mk "a" 7, FetchedEmail.mk "b" 3],
      e.receivedAt ≤ maxReceivedAt [⟨"a", 7⟩, ⟨"b", 3⟩] :=
  C3_watermark_is_prefilter_maximum ⟨some 1⟩ ["a", "b"]
    [⟨"a", 7⟩, ⟨"b", 3⟩] [⟨"a", 7⟩, ⟨"b", 3⟩] ⟨some 7⟩
    (by simp) (by decide)

/-- Claim C9: a poll cycle whose Email/query returns an empty id list
emits nothing and leaves the persisted state untouched, and running two
such cycles in a row from the same state is indistinguishable from
running one. -/
theorem C9_empty_query_idempotent
    (st : PollState) (emails1 emails2 : List FetchedEmail) :
    poll st [] emails1 = (none, st) ∧
    poll (poll st [] emails1).2 [] emails2 = (none, st) :=
  ⟨rfl, rfl⟩

/-! ## Batch protocol envelopes and mail operations (GenericFunctions)

The JMAP request body is {using, methodCalls} and the response body is
{methodResponses, sessionState}; each entry of either is a triple
(methodName, arguments, callId).  The operations below read the response
entries exactly as the source does: by position in the array, checking
the method name of the inspected entry. -/

/-- A JSON value, the shape of method arguments and results. -/
inductive JVal where
  | null : JVal
  | bool : Bool → JVal
  | num : Int → JVal
  | str : String → JVal
  | arr : List JVal → JVal
  | obj : List (String × JVal) → JVal

/-- One entry of a response envelope methodResponses array:
(methodName, result, callId). -/
structure MethodResponse where
  name : String
  args : JVal
  callId : String

/-- One entry of a request envelope methodCalls array:
(methodName, arguments, callId). -/
structure MethodCall where
  name : String
  args : JVal
  callId : String

/-- The ways the operations abort: jmapError models the
throw new Error with the stringified server payload embedded in the
message (the payload is carried); opFailed models the generic
operation-failure messages that do not carry the server payload; crash
models a JS TypeError from indexing undefined. -/
inductive JmapFailure where
  | jmapError : JVal → JmapFailure
  | opFailed : String → JmapFailure
  | crash : JmapFailure

/-- Lookup of a key in an insertion-ordered JS object, first match. -/
def lookupKey {α : Type} (m : List (String × α)) (k : String) : Option α :=
  (m.find? (fun p => p.1 == k)).map (fun p => p.2)

/-- Result extraction of queryEmails: reads methodResponses[0] and checks
its method name against Email/query; the callId of the entry is never
read. -/
def extractQueryEmails (rs : List MethodResponse) :
    Except JmapFailure JVal :=
  match rs with
  | [] => .error .crash
  | r :: _ =>
    if r.name == "Email/query" then .ok r.args
    else .error (.opFailed "Failed to query emails")

/-- Result extraction of sendEmail: scans all entries for the sentinel
method name error and throws with that entry payload; otherwise returns
methodResponses[1][1].  Entries are reached by position; callIds are
never read. -/
def sendEmailExtract (rs : List MethodResponse) : Except JmapFailure JVal :=
  match rs.find? (fun r => r.name == "error") with
  | some r => .error (.jmapError r.args)
  | none =>
    match rs[1]? with
    | some r1 => .ok r1.args
    | none => .error .crash

/-- Result extraction of updateEmailKeywords: reads methodResponses[0];
returns it when its name is Email/set, else throws the generic message
Failed to update email.  Only the first entry is inspected and no server
payload is attached to the failure. -/
def updateEmailKeywordsExtract (rs : List MethodResponse) :
    Except JmapFailure JVal :=
  match rs with
  | [] => .error .crash
  | r :: _ =>
    if r.name == "Email/set" then .ok r.args
    else .error (.opFailed "Failed to update email")

/-- Rewrites every response callId through f, leaving names and results
untouched; used to state that extraction never reads response callIds. -/
def relabelCallIds (f : String → String) (rs : List MethodResponse) :
    List MethodResponse :=
  rs.map (fun r => ⟨r.name, r.args, f r.callId⟩)

/-- Claim C4 counterexample: permuting the two entries of a synthetic
sendEmail response envelope makes the operation return the arguments of
the entry bearing callId c1 (the Email/set result), not the result
carried under callId c2 (the EmailSubmission/set result) that positional
slot 1 held before the permutation, so routing is not by callId. -/
theorem C4_counterexample_positional_routing :
    sendEmailExtract
      [⟨"EmailSubmission/set", .str "submissionResult", "c2"⟩,
       ⟨"Email/set", .str "draftResult", "c1"⟩]
      = .ok (.str "draftResult") ∧
    JVal.str "draftResult" ≠ JVal.str "submissionResult" := by
  constructor
  · rfl
  · intro h
    simp only [JVal.str.injEq] at h
    exact absurd h (by decide)

/-- Claim C4 amended: the client correlates method responses to calls by
position, checking only the method name of the entry at the inspected
index; the response callIds are never read, so extraction is invariant
under arbitrary relabelling of every response callId. -/
theorem C4_correlation_ignores_callids
    (f : String → String) (rs : List MethodResponse) :
    extractQueryEmails (relabelCallIds f rs) = extractQueryEmails rs ∧
    sendEmailExtract (relabelCallIds f rs) = sendEmailExtract rs ∧
    updateEmailKeywordsExtract (relabelCallIds f rs)
      = updateEmailKeywordsExtract rs := by
  refine ⟨?_, ?_, ?_⟩
  · cases rs with
    | nil => rfl
    | cons r rest => rfl
  · rw [sendEmailExtract, sendEmailExtract, relabelCallIds, List.find?_map]
    have hpred : ((fun r : MethodResponse => r.name == "error") ∘
        fun r : MethodResponse => (⟨r.name, r.args, f r.callId⟩ : MethodResponse))
        = fun r : MethodResponse => r.name == "error" := rfl
    rw [hpred]
    cases hf : rs.find? (fun r : MethodResponse => r.name == "error") with
    | some r => rfl
    | none =>
      simp only [Option.map_none]
      rw [List.getElem?_map]
      cases rs[1]? with
      | some r1 => rfl
      | none => rfl
  · cases rs with
    | nil => rfl
    | cons r rest => rfl

/-- A mailbox as returned by Mailbox/get, reduced to the fields the
operations read. -/
structure Mailbox where
  id : String
  name : String
  role : Option String
  deriving DecidableEq, Repr

/-- JS object spread followed by key overrides: replaces the value of an
existing key in place, appends the key otherwise. -/
def setField (o : List (String × JVal)) (k : String) (v : JVal) :
    List (String × JVal) :=
  if o.any (fun p => p.1 == k) then
    o.map (fun p => if p.1 == k then (k, v) else p)
  else o ++ [(k, v)]

/-- The draft object built by sendEmail: the caller email object with
mailboxIds overridden to place it in the drafts mailbox and keywords
overridden to the single $draft flag. -/
def draftEmailCreate (email : List (String × JVal)) (draftsId : String) :
    List (String × JVal) :=
  setField (setField email "mailboxIds" (.obj [(draftsId, .bool true)]))
    "keywords" (.obj [("$draft", .bool true)])

/-- The single-call envelope issued by getMailboxes. -/
def mailboxGetEnvelope (accountId : String) : List MethodCall :=
  [⟨"Mailbox/get", .obj [("accountId", .str accountId)], "c1"⟩]

/-- The two-call envelope issued by sendEmail: Email/set creating the
draft, then EmailSubmission/set referencing it by back-reference and
destroying it on success. -/
def sendEmailEnvelope (accountId : String) (email : List (String × JVal))
    (identityId draftsId : String) : List MethodCall :=
  [⟨"Email/set",
    .obj [("accountId", .str accountId),
          ("create", .obj [("draft", .obj (draftEmailCreate email draftsId))])],
    "c1"⟩,
   ⟨"EmailSubmission/set",
    .obj [("accountId", .str accountId),
          ("create", .obj [("send",
            .obj [("emailId", .str "#draft"),
                  ("identityId", .str identityId)])]),
          ("onSuccessDestroyEmail", .arr [.str "#send"])],
    "c2"⟩]

/-- The sendEmail operation: resolves the drafts mailbox by role from the
list fetched through getMailboxes (one Mailbox/get envelope on the wire),
aborts with Drafts mailbox not found when no mailbox has role drafts, and
otherwise issues the two-call envelope and demultiplexes the response rs.
Returns the result together with the list of envelopes put on the wire,
in order. -/
def sendEmailRun (accountId : String) (email : List (String × JVal))
    (identityId : String) (mailboxes : List Mailbox)
    (rs : List MethodResponse) :
    Except JmapFailure JVal × List (List MethodCall) :=
  match mailboxes.find? (fun mb => mb.role == some "drafts") with
  | none =>
    (.error (.opFailed "Drafts mailbox not found"), [mailboxGetEnvelope accountId])
  | some draftsMailbox =>
    (sendEmailExtract rs,
     [mailboxGetEnvelope accountId,
      sendEmailEnvelope accountId email identityId draftsMailbox.id])

/-- Claim C6: when no mailbox has role drafts, sendEmail fails with the
missing-drafts error and no envelope it issued contains an Email/set
call, so the draft-creating request is never sent. -/
theorem C6_no_drafts_no_emailset_sent
    (accountId identityId : String) (email : List (String × JVal))
    (mailboxes : List Mailbox)
    (hnone : ∀ mb ∈ mailboxes, mb.role ≠ some "drafts")
    (rs : List MethodResponse) :
    (sendEmailRun accountId email identityId mailboxes rs).1
      = .error (.opFailed "Drafts mailbox not found") ∧
    ∀ env ∈ (sendEmailRun accountId email identityId mailboxes rs).2,
      ∀ c ∈ env, c.name ≠ "Email/set" := by
  have hfind : mailboxes.find? (fun mb => mb.role == some "drafts") = none := by
    rw [List.find?_eq_none]
    intro mb hmb
    simpa using hnone mb hmb
  rw [sendEmailRun, hfind]
  refine ⟨rfl, ?_⟩
  intro env henv c hc
  simp only [List.mem_singleton] at henv
  rw [henv, mailboxGetEnvelope, List.mem_singleton] at hc
  rw [hc]
  simp

/-- Witness for C6 on a mailbox list holding only an inbox. -/
theorem C6_no_drafts_no_emailset_sent_witness :
    (sendEmailRun "acc" [] "id1" [⟨"mb1", "Inbox", some "inbox"⟩] []).1
      = .error (.opFailed "Drafts mailbox not found") :=
  (C6_no_drafts_no_emailset_sent "acc" "id1" [] [⟨"mb1", "Inbox", some "inbox"⟩]
    (by decide) []).1

/-- Claim C5 counterexample: updateEmailKeywords on an envelope whose
only entry is a server error aborts with the generic message Failed to
update email, which does not carry the server payload; and an envelope
whose first entry is an Email/set success is treated as success even
though a later entry is an error, because only the first entry is
inspected. -/
theorem C5_counterexample_generic_error :
    updateEmailKeywordsExtract
      [⟨"error", .obj [("type", .str "invalidArguments"),
                       ("description", .str "bad patch")], "c1"⟩]
      = .error (.opFailed "Failed to update email") ∧
    updateEmailKeywordsExtract
      [⟨"error", .obj [("type", .str "invalidArguments"),
                       ("description", .str "bad patch")], "c1"⟩]
      ≠ .error (.jmapError (.obj [("type", .str "invalidArguments"),
                                  ("description", .str "bad patch")])) ∧
    updateEmailKeywordsExtract
      [⟨"Email/set", .str "updated", "c1"⟩,
       ⟨"error", .str "serverFail", "c9"⟩]
      = .ok (.str "updated") := by
  refine ⟨rfl, ?_, rfl⟩
  intro h
  have h2 : JmapFailure.opFailed "Failed to update email"
      = JmapFailure.jmapError (.obj [("type", .str "invalidArguments"),
                                     ("description", .str "bad patch")]) := by
    have h3 : updateEmailKeywordsExtract
        [⟨"error", .obj [("type", .str "invalidArguments"),
                         ("description", .str "bad patch")], "c1"⟩]
        = .error (.opFailed "Failed to update email") := rfl
    rw [h3] at h
    exact Except.error.inj h
  exact absurd h2 (by intro h4; cases h4)

/-- Claim C5 amended: sendEmail aborts on every envelope containing an
entry with method name error, raising the payload-carrying failure of
the first such entry, and never returns success on a mixed envelope;
updateEmailKeywords also never treats an error entry in the inspected
position as success, but it aborts with a generic message that does not
carry the server payload and it inspects only the first entry. -/
theorem C5_error_entries_abort
    (rs : List MethodResponse) (r : MethodResponse)
    (hr : r ∈ rs) (hname : r.name = "error") :
    (∃ r0 ∈ rs, r0.name = "error" ∧
      sendEmailExtract rs = .error (.jmapError r0.args)) ∧
    (∀ res, sendEmailExtract rs ≠ .ok res) ∧
    (∀ rest, updateEmailKeywordsExtract (r :: rest)
      = .error (.opFailed "Failed to update email")) := by
  have hsome : (rs.find? (fun x => x.name == "error")).isSome := by
    rw [List.find?_isSome]
    exact ⟨r, hr, by simp [hname]⟩
  obtain ⟨r0, hr0⟩ := Option.isSome_iff_exists.mp hsome
  have hmem : r0 ∈ rs := List.mem_of_find?_eq_some hr0
  have hpred : r0.name = "error" := by
    have := List.find?_some hr0
    simpa using this
  have hext : sendEmailExtract rs = .error (.jmapError r0.args) := by
    rw [sendEmailExtract, hr0]
  refine ⟨⟨r0, hmem, hpred, hext⟩, ?_, ?_⟩
  · intro res hres
    rw [hext] at hres
    cases hres
  · intro rest
    rw [updateEmailKeywordsExtract]
    have : (r.name == "Email/set") = false := by
      simp [hname]
    rw [this]
    simp

/-- Witness for C5 amended on a concrete two-entry mixed envelope. -/
theorem C5_error_entries_abort_witness :
    updateEmailKeywordsExtract [⟨"error", .str "boom", "c2"⟩]
      = .error (.opFailed "Failed to update email") :=
  (C5_error_entries_abort [⟨"error", .str "boom", "c2"⟩]
    ⟨"error", .str "boom", "c2"⟩ (by simp) rfl).2.2 []

/-! ## Session account resolution (getPrimaryAccountId) -/

/-- An account entry of the session object, reduced to the fields the
session shape declares. -/
structure JAccount where
  name : String
  isPersonal : Bool
  isReadOnly : Bool
  deriving Repr

/-- The part of the JMAP session object the account resolution reads.
Both maps are insertion-ordered JS objects, modelled as association
lists; Object.keys order is the list order. -/
structure JSession where
  accounts : List (String × JAccount)
  primaryAccounts : List (String × String)

/-- The mail capability URI used as the primaryAccounts key. -/
def mailCapability : String := "urn:ietf:params:jmap:mail"

/-- The fallback of getPrimaryAccountId: the first key of the accounts
object, or the no-account failure when it is empty. -/
def fallbackAccountId (s : JSession) : Except JmapFailure String :=
  match s.accounts with
  | [] => .error (.opFailed "No JMAP account found")
  | kv :: _ => .ok kv.1

/-- The account resolution of getPrimaryAccountId: the primaryAccounts
entry for the mail capability when it is present and truthy (a JS falsy
empty string falls through, mirroring the source truthiness test), else
the first accounts key, else the no-account failure. -/
def getPrimaryAccountId (s : JSession) : Except JmapFailure String :=
  match lookupKey s.primaryAccounts mailCapability with
  | some v => if v ≠ "" then .ok v else fallbackAccountId s
  | none => fallbackAccountId s

theorem lookupKey_mem {α : Type} (m : List (String × α)) (k : String) (v : α)
    (h : lookupKey m k = some v) : ∃ p ∈ m, p.2 = v := by
  rw [lookupKey] at h
  cases hf : m.find? (fun p => p.1 == k) with
  | none => rw [hf] at h; simp at h
  | some p =>
    rw [hf] at h
    simp only [Option.map_some', Option.some.injEq] at h
    exact ⟨p, List.mem_of_find?_eq_some hf, h⟩

theorem fallbackAccountId_nil (s : JSession) (h : s.accounts = []) :
    fallbackAccountId s = .error (.opFailed "No JMAP account found") := by
  rw [fallbackAccountId, h]

theorem fallbackAccountId_cons (s : JSession) (kv : String × JAccount)
    (tl : List (String × JAccount)) (h : s.accounts = kv :: tl) :
    fallbackAccountId s = .ok kv.1 := by
  rw [fallbackAccountId, h]

theorem getPrimaryAccountId_some (s : JSession) (v : String)
    (hl : lookupKey s.primaryAccounts mailCapability = some v)
    (hv : v ≠ "") : getPrimaryAccountId s = .ok v := by
  rw [getPrimaryAccountId, hl]
  exact if_pos hv

theorem getPrimaryAccountId_none (s : JSession)
    (hl : lookupKey s.primaryAccounts mailCapability = none) :
    getPrimaryAccountId s = fallbackAccountId s := by
  rw [getPrimaryAccountId, hl]

/-- Claim C7: under the well-formedness hypothesis that no primary
account id is the empty string, getPrimaryAccountId returns the
primaryAccounts entry for the mail capability when present, otherwise
the first key of accounts when accounts is non-empty, and it fails
exactly when accounts is empty and no primary mail mapping exists. -/
theorem C7_primary_account_resolution (s : JSession)
    (hvals : ∀ p ∈ s.primaryAccounts, p.2 ≠ "") :
    (∀ v, lookupKey s.primaryAccounts mailCapability = some v →
      getPrimaryAccountId s = .ok v) ∧
    (lookupKey s.primaryAccounts mailCapability = none →
      ∀ kv tl, s.accounts = kv :: tl → getPrimaryAccountId s = .ok kv.1) ∧
    ((∃ msg, getPrimaryAccountId s = .error msg) ↔
      (s.accounts = [] ∧ lookupKey s.primaryAccounts mailCapability = none)) := by
  have hval : ∀ v, lookupKey s.primaryAccounts mailCapability = some v →
      v ≠ "" := by
    intro v hv2
    obtain ⟨p, hp, hpv⟩ := lookupKey_mem _ _ _ hv2
    rw [← hpv]
    exact hvals p hp
  refine ⟨fun v hv2 => getPrimaryAccountId_some s v hv2 (hval v hv2),
    fun hnone kv tl hacc => by
      rw [getPrimaryAccountId_none s hnone, fallbackAccountId_cons s kv tl hacc],
    ?_, ?_⟩
  · rintro ⟨msg, hmsg⟩
    cases hl : lookupKey s.primaryAccounts mailCapability with
    | some v =>
      rw [getPrimaryAccountId_some s v hl (hval v hl)] at hmsg
      cases hmsg
    | none =>
      refine ⟨?_, rfl⟩
      cases hacc : s.accounts with
      | nil => rfl
      | cons kv tl =>
        rw [getPrimaryAccountId_none s hl,
          fallbackAccountId_cons s kv tl hacc] at hmsg
        cases hmsg
  · rintro ⟨hacc, hl⟩
    exact ⟨.opFailed "No JMAP account found",
      by rw [getPrimaryAccountId_none s hl, fallbackAccountId_nil s hacc]⟩

/-- Witness for C7 on a session with an explicit primary mail account. -/
theorem C7_primary_account_resolution_witness :
    getPrimaryAccountId
      ⟨[("a2", ⟨"Main", true, false⟩)], [(mailCapability, "a1")]⟩
      = .ok "a1" :=
  (C7_primary_account_resolution
    ⟨[("a2", ⟨"Main", true, false⟩)], [(mailCapability, "a1")]⟩
    (by decide)).1 "a1" rfl

/-! ## Attachment MIME filtering (matchesMimeType, getAttachments)

The JS string methods used by matchesMimeType are modelled on the
character list underlying the string, with the semantics the source
relies on: toLowerCase (character-wise lowering; MIME types are ASCII),
trim (strip whitespace at both ends), endsWith, startsWith, and
slice(0, -1) (drop the last character). -/

/-- Character-wise lowercasing, the toLowerCase of the source. -/
def toLowerAscii (s : String) : String := ⟨s.data.map Char.toLower⟩

/-- Strip whitespace from both ends of a character list. -/
def trimChars (l : List Char) : List Char :=
  ((l.dropWhile Char.isWhitespace).reverse.dropWhile Char.isWhitespace).reverse

/-- The trim of the source. -/
def trimStr (s : String) : String := ⟨trimChars s.data⟩

/-- The endsWith of the source. -/
def endsWithStr (s suff : String) : Bool := suff.data.isSuffixOf s.data

/-- The startsWith of the source. -/
def startsWithStr (s p : String) : Bool := p.data.isPrefixOf s.data

/-- The slice(0, -n) of the source: drop the last n characters. -/
def dropRightStr (s : String) (n : Nat) : String :=
  ⟨s.data.take (s.data.length - n)⟩

/-- The MIME type matcher of the attachment pipeline: both sides are
lowercased and the filter trimmed; a filter ending in slash-star is a
leading-part wildcard (the slice keeps the slash), anything else is an
exact comparison. -/
def matchesMimeType (mimeType filt : String) : Bool :=
  let normalizedMime := toLowerAscii mimeType
  let normalizedFilter := trimStr (toLowerAscii filt)
  if endsWithStr normalizedFilter "/*" then
    startsWithStr normalizedMime (dropRightStr normalizedFilter 1)
  else
    normalizedMime == normalizedFilter

/-- The MIME stage of the attachment selection loop in getAttachments:
with a non-empty filter list, at least one filter must match; an empty
list skips the check. -/
def mimeFilterAccepts (mimeFilters : List String) (t : String) : Bool :=
  mimeFilters.isEmpty || mimeFilters.any (fun f => matchesMimeType t f)

/-- The whole per-attachment selection of getAttachments: an inline
attachment is skipped unless includeInline, then the MIME stage runs. -/
def attachmentSelected (includeInline : Bool) (mimeFilters : List String)
    (isInline : Bool) (mimeType : String) : Bool :=
  (!(isInline && !includeInline)) && mimeFilterAccepts mimeFilters mimeType

/-- The comma-separated filter option parsing of getAttachments: split,
trim, drop empties; the empty option string yields the empty list. -/
def parseMimeFilters (s : String) : List String :=
  if s == "" then []
  else ((s.splitOn ",").map trimStr).filter (fun f => f ≠ "")

/-- Claim C8: for a filter without surrounding whitespace, a wildcard
filter matches exactly when the lowercased type starts with the
lowercased part before the star (slash included), a non-wildcard filter
matches exactly when the two strings are equal case-insensitively, the
three concrete examples of the specification evaluate as stated, and an
empty filter list accepts every attachment, leaving only the inline
rule. -/
theorem C8_mime_filter_semantics (mime filt : String)
    (hf : trimStr (toLowerAscii filt) = toLowerAscii filt) :
    (endsWithStr (toLowerAscii filt) "/*" = true →
      (matchesMimeType mime filt = true ↔
        startsWithStr (toLowerAscii mime) (dropRightStr (toLowerAscii filt) 1)
          = true)) ∧
    (endsWithStr (toLowerAscii filt) "/*" = false →
      (matchesMimeType mime filt = true ↔
        toLowerAscii mime = toLowerAscii filt)) ∧
    matchesMimeType "image/png" "image/*" = true ∧
    matchesMimeType "image/png" "image/jpeg" = false ∧
    matchesMimeType "IMAGE/PNG" "image/png" = true ∧
    (∀ t, mimeFilterAccepts [] t = true) ∧
    (∀ incl isinl t, attachmentSelected incl [] isinl t
      = !(isinl && !incl)) := by
  refine ⟨?_, ?_, by decide, by decide, by decide, fun t => rfl, ?_⟩
  · intro hw
    simp [matchesMimeType, hf, hw]
  · intro hw
    simp [matchesMimeType, hf, hw]
  · intro incl isinl t
    simp [attachmentSelected, mimeFilterAccepts]

/-- Witness for C8 at the wildcard example of the specification. -/
theorem C8_mime_filter_semantics_witness :
    matchesMimeType "image/png" "image/*" = true :=
  (C8_mime_filter_semantics "image/png" "image/*" (by decide)).2.2.1

/-! ## Keyword update requests (updateEmailKeywords, markAsRead,
markAsUnread in Jmap.execute) -/

/-- The single Email/set call issued by updateEmailKeywords: an update
patch keyed by the email id whose sole entry replaces the keywords
property wholesale. -/
def updateEmailKeywordsCall (accountId emailId : String) (keywords : JVal) :
    MethodCall :=
  ⟨"Email/set",
   .obj [("accountId", .str accountId),
         ("update", .obj [(emailId, .obj [("keywords", keywords)])])],
   "c1"⟩

/-- The call issued by the markAsRead operation of Jmap.execute. -/
def markAsReadCall (accountId emailId : String) : MethodCall :=
  updateEmailKeywordsCall accountId emailId (.obj [("$seen", .bool true)])

/-- The call issued by the markAsUnread operation of Jmap.execute. -/
def markAsUnreadCall (accountId emailId : String) : MethodCall :=
  updateEmailKeywordsCall accountId emailId (.obj [("$seen", .bool false)])

/-- Field lookup on a JSON object value. -/
def objLookup : JVal → String → Option JVal
  | .obj fields, k => lookupKey fields k
  | _, _ => none

/-- Key list of a JSON object value. -/
def objKeys : JVal → List String
  | .obj fields => fields.map (fun p => p.1)
  | _ => []

/-- The per-email update patch carried by an Email/set call. -/
def emailPatchOf (c : MethodCall) (emailId : String) : Option JVal :=
  match objLookup c.args "update" with
  | some u => objLookup u emailId
  | none => none

/-- Claim C10: markAsRead and markAsUnread send an Email/set update whose
per-email patch is exactly the object replacing the whole keywords map by
the one-entry map with the dollar-seen flag: the patch has the single key
keywords (no sparse keywords path key), and the new keywords map has the
single key dollar-seen, so no other keyword such as dollar-flagged is
carried in the patch. -/
theorem C10_mark_read_replaces_keywords (accountId emailId : String) :
    (markAsReadCall accountId emailId).name = "Email/set" ∧
    emailPatchOf (markAsReadCall accountId emailId) emailId
      = some (.obj [("keywords", .obj [("$seen", .bool true)])]) ∧
    emailPatchOf (markAsUnreadCall accountId emailId) emailId
      = some (.obj [("keywords", .obj [("$seen", .bool false)])]) ∧
    (emailPatchOf (markAsReadCall accountId emailId) emailId).map objKeys
      = some ["keywords"] ∧
    ((emailPatchOf (markAsReadCall accountId emailId) emailId).bind
        (fun p => objLookup p "keywords")).map objKeys
      = some ["$seen"] := by
  have hpatch : emailPatchOf (markAsReadCall accountId emailId) emailId
      = some (.obj [("keywords", .obj [("$seen", .bool true)])]) := by
    simp [emailPatchOf, markAsReadCall, updateEmailKeywordsCall, objLookup,
      lookupKey]
  have hpatch2 : emailPatchOf (markAsUnreadCall accountId emailId) emailId
      = some (.obj [("keywords", .obj [("$seen", .bool false)])]) := by
    simp [emailPatchOf, markAsUnreadCall, updateEmailKeywordsCall, objLookup,
      lookupKey]
  refine ⟨rfl, hpatch, hpatch2, ?_, ?_⟩
  · rw [hpatch]
    rfl
  · rw [hpatch]
    rfl

end Jmap
